import Mathlib

/-!
Shallow embedding of the Caliper blockchain-connector core:
the base `BlockchainConnector` contract and the FISCO BCOS concrete
connector (`FiscoBcosConnector`), with the event-channel protocol
(`txsSubmitted` / `txsFinished`), the argument-normalization algorithm
and the batched invocation path.

External collaborators (the per-operation strategy modules
`installSmartContract` / `invokeSmartContract` impls) are modelled as
parameters: a strategy is a function from the arguments the connector
passes to an `Except`-valued outcome, mirroring a promise that either
fulfils or rejects.  JavaScript objects used as argument maps are
modelled as association lists in enumeration (insertion) order, which is
how `for ... in` enumerates string-keyed own properties.
-/

/-- A JavaScript value appearing in an argument map; `toString` models
JS string coercion as applied by the connector (`arg[key].toString()`). -/
inductive JSValue where
  | vStr : String → JSValue
  | vNum : Int → JSValue
deriving DecidableEq, Repr

def JSValue.toString : JSValue → String
  | .vStr s => s
  | .vNum n => ToString.toString n

/-- A JS object used as an argument map: keys with values, in
enumeration order. -/
abbrev ArgMap := List (String × JSValue)

/-- A transaction result record produced by an underlying call. -/
structure TxStatus where
  id : String
  success : Bool
deriving DecidableEq, Repr

instance : Inhabited TxStatus := ⟨⟨"", false⟩⟩

/-- The shape of the arguments the connector hands to the invoke
strategy: `invokeSmartContract` passes the positional-argument array,
while `queryState` passes the bare lookup key string. -/
inductive CallArgs where
  | arr : List String → CallArgs
  | str : String → CallArgs
deriving DecidableEq, Repr

/-- The external invoke strategy (`invokeSmartContractImpl.run`):
receives the contract id, the (nullable) function name, the arguments
and the read-only flag, and either fulfils with a `TxStatus` or rejects
with an error. Settings and workspace root are fixed per connector and
elided. -/
structure Strategy where
  run : String → Option String → CallArgs → Bool → Except String TxStatus

/-- Payload of a `txsFinished` event: the base class accepts a single
result or an array of results (`TxStatus|TxStatus[]`). -/
inductive FinPayload where
  | one : TxStatus → FinPayload
  | many : List TxStatus → FinPayload
deriving DecidableEq, Repr

/-- Events raised on the connector's event channel. -/
inductive Event where
  | txsSubmitted : Nat → Event
  | txsFinished : FinPayload → Event
deriving DecidableEq, Repr

def Event.isTxsFinished : Event → Bool
  | .txsFinished _ => true
  | .txsSubmitted _ => false

/-- The `invokeData` parameter may be a single argument map or an array
of maps. -/
inductive InvokeData where
  | single : ArgMap → InvokeData
  | batch : List ArgMap → InvokeData
deriving DecidableEq, Repr

/-- Normalization of `invokeData` to a list: `if
(!Array.isArray(invokeData)) invocations = [invokeData]; else
invocations = invokeData;`. -/
def toInvocations : InvokeData → List ArgMap
  | .single a => [a]
  | .batch as => as

namespace FiscoBcosConnector

/-- One iteration of the argument-normalization loop inside
`invokeSmartContract`: `if (key === 'transaction_type') fcn =
arg[key].toString(); else fcArgs.push(arg[key].toString());`. -/
def normStep (acc : Option String × List String) (kv : String × JSValue) :
    Option String × List String :=
  if kv.1 = "transaction_type" then (some kv.2.toString, acc.2)
  else (acc.1, acc.2 ++ [kv.2.toString])

/-- The argument-normalization loop inside `invokeSmartContract`:
`let fcn = null; let fcArgs = []; for (let key in arg) { ... }`. -/
def normalizeArg (arg : ArgMap) : Option String × List String :=
  arg.foldl normStep (none, [])

/-- The promise created for one batch element:
`invokeSmartContractImpl.run(settings, contractID, fcn, fcArgs,
workspaceRoot)` with the read-only flag absent (falsy). -/
def callOf (st : Strategy) (contractID : String) (arg : ArgMap) :
    Except String TxStatus :=
  let normalized := normalizeArg arg
  st.run contractID normalized.1 (CallArgs.arr normalized.2) false

/-- A model of which rejection `Promise.all` reports: it rejects with
the first promise to reject in completion order; `order` is the completion schedule (a permutation of the indices)
and `firstRejection` picks the error of the earliest-completing rejected
promise, if any. -/
def firstRejection (order : List Nat) (ps : List (Except String TxStatus)) :
    Option String :=
  order.findSome? (fun i =>
    match ps[i]? with
    | some (Except.error e) => some e
    | some (Except.ok _) => none
    | none => none)

/-- Semantics of `Promise.all(promises)`: fulfils with the index-ordered values when
every promise fulfils, rejects with the earliest rejection otherwise. -/
def promiseAll (order : List Nat) (ps : List (Except String TxStatus)) :
    Except String (List TxStatus) :=
  match firstRejection order ps with
  | some e => .error e
  | none => .ok (ps.filterMap Except.toOption)

/-- The concrete `invokeSmartContract`: wraps a single map into a
one-element batch, emits `txsSubmitted(1)` per element while building
the promises, awaits `Promise.all`, and on success emits
`txsFinished(results)` and returns them; on rejection the error is
logged and re-thrown, with no `txsFinished` event.  Returns the event
trace alongside the settled outcome. -/
def invokeSmartContract (st : Strategy) (contractID : String)
    (invokeData : InvokeData) (order : List Nat) :
    List Event × Except String (List TxStatus) :=
  let invocations := toInvocations invokeData
  let promises := invocations.map (callOf st contractID)
  let submits := invocations.map (fun _ => Event.txsSubmitted 1)
  match promiseAll order promises with
  | .ok results => (submits ++ [Event.txsFinished (.many results)], .ok results)
  | .error e => (submits, .error e)

/-- The concrete `queryState`: emits `txsSubmitted(1)`, awaits
`invokeSmartContractImpl.run(settings, contractID, fcn, key,
workspaceRoot, true)` — the bare key and read-only flag `true` — then
emits `txsFinished(result)` with the bare result and returns it; on
rejection logs and re-throws with no `txsFinished` event. -/
def queryState (st : Strategy) (contractID : String) (key : String)
    (fcn : String) : List Event × Except String TxStatus :=
  match st.run contractID (some fcn) (CallArgs.str key) true with
  | .ok result => ([Event.txsSubmitted 1, Event.txsFinished (.one result)], .ok result)
  | .error e => ([Event.txsSubmitted 1], .error e)

/-- Connector instance state relevant to context handling: the
`this.context` field (`undefined` or the context object). -/
structure FiscoBcosState where
  context : Option ArgMap
deriving DecidableEq, Repr

/-- Source: `async getContext(roundIndex, args) { this.context = {};
return this.context; }`. -/
def getContext (roundIndex : Nat) (args : ArgMap) (s : FiscoBcosState) :
    Except String (ArgMap × FiscoBcosState) :=
  .ok ([], { s with context := some [] })

/-- Source: `async releaseContext() { this.context = undefined; }`. -/
def releaseContext (s : FiscoBcosState) : Except String FiscoBcosState :=
  .ok { s with context := none }

/-- The concrete `installSmartContract`, parameterized by the
outcome of the external install strategy: on failure it logs
`FISCO BCOS smart contract install failed: ...` and re-throws the same
error; on success nothing is logged.  Returns the log lines alongside
the settled outcome. -/
def installSmartContract (installResult : Except String Unit) :
    List String × Except String Unit :=
  match installResult with
  | .ok _ => ([], .ok ())
  | .error e =>
      (["FISCO BCOS smart contract install failed: " ++ e], .error e)

end FiscoBcosConnector

namespace BlockchainConnector

/-- Source: `async init(workerInit) { throw new Error('init is not
implemented for this blockchain connector'); }`. -/
def init : Except String Unit :=
  .error "init is not implemented for this blockchain connector"

/-- Base-class `installSmartContract`: throws unimplemented. -/
def installSmartContract : Except String Unit :=
  .error "installSmartContract is not implemented for this blockchain connector"

/-- Source: `async prepareWorkerArguments(number) { let result = [];
for(let i = 0; i < number; i++) { result[i] = {}; } return result; }`. -/
def prepareWorkerArguments (number : Nat) : List ArgMap :=
  (List.range number).map (fun _ => ([] : ArgMap))

/-- Base-class `getContext`: throws unimplemented. -/
def getContext : Except String Unit :=
  .error "getContext is not implemented for this blockchain connector"

/-- Base-class `releaseContext`: throws unimplemented. -/
def releaseContext : Except String Unit :=
  .error "releaseContext is not implemented for this blockchain connector"

/-- Base-class `invokeSmartContract`: throws unimplemented. -/
def invokeSmartContract : Except String Unit :=
  .error "invokeSmartContract is not implemented for this blockchain connector"

/-- Base-class `querySmartContract`: throws unimplemented. -/
def querySmartContract : Except String Unit :=
  .error "querySmartContract is not implemented for this blockchain connector"

/-- Base-class `queryState`: throws unimplemented. -/
def queryState : Except String Unit :=
  .error "queryState is not implemented for this blockchain connector"

/-- The default (unoverridden) operations of the base class whose body
throws an unimplemented-operation error, with their names.  The base
class defines exactly these seven such methods; its other members
(`_onTxsSubmitted`, `_onTxsFinished`, `getType`, `getWorkerIndex`,
`prepareWorkerArguments`) have working default bodies. -/
def defaultUnimplemented : List (String × Except String Unit) :=
  [("init", init),
   ("installSmartContract", installSmartContract),
   ("getContext", getContext),
   ("releaseContext", releaseContext),
   ("invokeSmartContract", invokeSmartContract),
   ("querySmartContract", querySmartContract),
   ("queryState", queryState)]

end BlockchainConnector

/-! ## Helper lemmas -/

namespace FiscoBcosConnector

lemma normStep_foldl_no_tt :
    ∀ (arg : ArgMap) (acc : Option String × List String),
      (∀ kv ∈ arg, kv.1 ≠ "transaction_type") →
      arg.foldl normStep acc =
        (acc.1, acc.2 ++ arg.map (fun kv => kv.2.toString)) := by
  intro arg
  induction arg with
  | nil => intro acc _; simp
  | cons kv rest ih =>
      intro acc h
      have hkv : kv.1 ≠ "transaction_type" := h kv (List.mem_cons_self _ _)
      have hrest : ∀ kv' ∈ rest, kv'.1 ≠ "transaction_type" :=
        fun kv' hm => h kv' (List.mem_cons_of_mem _ hm)
      simp only [List.foldl_cons, normStep, if_neg hkv]
      rw [ih _ hrest]
      simp [List.append_assoc]

lemma normStep_foldl_snd :
    ∀ (arg : ArgMap) (acc : Option String × List String),
      (arg.foldl normStep acc).2 =
        acc.2 ++ (arg.filter (fun kv => kv.1 != "transaction_type")).map
          (fun kv => kv.2.toString) := by
  intro arg
  induction arg with
  | nil => intro acc; simp
  | cons kv rest ih =>
      intro acc
      by_cases hkv : kv.1 = "transaction_type"
      · simp only [List.foldl_cons, normStep, if_pos hkv, List.filter_cons,
          hkv, bne_self_eq_false]
        exact ih _
      · simp only [List.foldl_cons, normStep, if_neg hkv, List.filter_cons]
        rw [ih _]
        have : (kv.1 != "transaction_type") = true := by
          simpa [bne] using hkv
        simp [this, List.append_assoc]

lemma normStep_foldl_fst_mem :
    ∀ (arg : ArgMap) (acc : Option String × List String) (v : JSValue),
      (arg.map Prod.fst).Nodup → ("transaction_type", v) ∈ arg →
      (arg.foldl normStep acc).1 = some v.toString := by
  intro arg
  induction arg with
  | nil => intro acc v _ hm; cases hm
  | cons kv rest ih =>
      intro acc v hnd hm
      have hnd' : ("transaction_type", v) = kv ∨ ("transaction_type", v) ∈ rest :=
        List.mem_cons.mp hm
      rcases hnd' with heq | hmem
      · subst heq
        simp only [List.foldl_cons, normStep, if_pos rfl]
        have hnot : ∀ kv' ∈ rest, kv'.1 ≠ "transaction_type" := by
          intro kv' hm' hcontra
          have : kv'.1 ∈ rest.map Prod.fst := List.mem_map_of_mem _ hm'
          rw [hcontra] at this
          exact (List.nodup_cons.mp (by simpa using hnd)).1 this
        rw [normStep_foldl_no_tt rest _ hnot]
        simp
      · exact ih _ v (List.nodup_cons.mp (by simpa using hnd)).2 hmem

end FiscoBcosConnector

/-! ## Claim theorems -/

/-- C3: the normalization step inside `invokeSmartContract` uses the
string-coerced value of the key equal to `transaction_type` as the
function name, appends every other key's string-coerced value to the
positional-argument list in enumeration order; the given example map
yields `"transferFunds"` with `["X", "10"]`, and a map with no
`transaction_type` key leaves the function name null. -/
theorem c3_argument_normalization :
    (∀ (arg : ArgMap) (v : JSValue),
        (arg.map Prod.fst).Nodup → ("transaction_type", v) ∈ arg →
        (FiscoBcosConnector.normalizeArg arg).1 = some v.toString) ∧
    (∀ arg : ArgMap,
        (FiscoBcosConnector.normalizeArg arg).2 =
          (arg.filter (fun kv => kv.1 != "transaction_type")).map
            (fun kv => kv.2.toString)) ∧
    FiscoBcosConnector.normalizeArg
        [("transaction_type", JSValue.vStr "transferFunds"),
         ("to", JSValue.vStr "X"), ("amount", JSValue.vStr "10")] =
      (some "transferFunds", ["X", "10"]) ∧
    (∀ arg : ArgMap, (∀ kv ∈ arg, kv.1 ≠ "transaction_type") →
        (FiscoBcosConnector.normalizeArg arg).1 = none) := by
  refine ⟨?_, ?_, by decide, ?_⟩
  · intro arg v hnd hm
    exact FiscoBcosConnector.normStep_foldl_fst_mem arg _ v hnd hm
  · intro arg
    simpa using FiscoBcosConnector.normStep_foldl_snd arg (none, [])
  · intro arg h
    unfold FiscoBcosConnector.normalizeArg
    rw [FiscoBcosConnector.normStep_foldl_no_tt arg _ h]

/-- Witness for C3 at concrete inputs. -/
theorem c3_argument_normalization_witness :
    (FiscoBcosConnector.normalizeArg
        [("transaction_type", JSValue.vStr "transferFunds"),
         ("to", JSValue.vStr "X"), ("amount", JSValue.vStr "10")]).1 =
      some "transferFunds" ∧
    (FiscoBcosConnector.normalizeArg [("to", JSValue.vStr "X")]).1 = none :=
  ⟨c3_argument_normalization.1 _ (JSValue.vStr "transferFunds")
      (by decide) (by decide),
   c3_argument_normalization.2.2.2 [("to", JSValue.vStr "X")] (by decide)⟩

/-- C4 counterexample: the base connector defines exactly seven default
operations whose body throws an unimplemented-operation error, not nine
(`prepareWorkerArguments`, `getType`, `getWorkerIndex` and the two
protected notifiers all have working default bodies). -/
theorem c4_counterexample_not_nine :
    ¬ (BlockchainConnector.defaultUnimplemented.length = 9) := by decide

/-- C4 amended: each of the seven lifecycle/operation methods of the
base connector that is not overridden fails, when called, with an error
whose message names that exact operation. -/
theorem c4_seven_unimplemented :
    BlockchainConnector.defaultUnimplemented.length = 7 ∧
    (∀ p ∈ BlockchainConnector.defaultUnimplemented,
        p.2 = Except.error
          (p.1 ++ " is not implemented for this blockchain connector")) := by
  refine ⟨rfl, ?_⟩
  intro p hp
  simp only [BlockchainConnector.defaultUnimplemented, List.mem_cons,
    List.not_mem_nil, or_false] at hp
  rcases hp with h | h | h | h | h | h | h <;> subst h <;> rfl

/-- Witness for C4's amended theorem at the `init` operation. -/
theorem c4_seven_unimplemented_witness :
    BlockchainConnector.init =
      Except.error ("init" ++ " is not implemented for this blockchain connector") :=
  c4_seven_unimplemented.2 ("init", BlockchainConnector.init)
    (by simp [BlockchainConnector.defaultUnimplemented])

/-- C6: for every `workerCount ≥ 0`, the base connector's default
`prepareWorkerArguments(workerCount)` returns a sequence of exactly
`workerCount` empty mappings, one per worker index, index-aligned with
the worker index. -/
theorem c6_prepareWorkerArguments (n : Nat) :
    (BlockchainConnector.prepareWorkerArguments n).length = n ∧
    ∀ i, i < n → (BlockchainConnector.prepareWorkerArguments n).get? i =
      some ([] : ArgMap) := by
  constructor
  · simp [BlockchainConnector.prepareWorkerArguments]
  · intro i hi
    simp [BlockchainConnector.prepareWorkerArguments,
      List.getElem?_replicate, hi]

/-- Witness for C6 at `workerCount = 3`, worker index `1`. -/
theorem c6_prepareWorkerArguments_witness :
    (BlockchainConnector.prepareWorkerArguments 3).length = 3 ∧
    (BlockchainConnector.prepareWorkerArguments 3).get? 1 =
      some ([] : ArgMap) :=
  ⟨(c6_prepareWorkerArguments 3).1,
   (c6_prepareWorkerArguments 3).2 1 (by decide)⟩

/-- C7: the concrete connector's `releaseContext` never throws — it
succeeds from every instance state, including the fresh state with no
preceding `getContext` — and after any `releaseContext` call a new
`getContext` call succeeds and returns a context. -/
theorem c7_releaseContext_safe (s : FiscoBcosConnector.FiscoBcosState)
    (ri : Nat) (args : ArgMap) :
    FiscoBcosConnector.releaseContext s = Except.ok { context := none } ∧
    (∀ s', FiscoBcosConnector.releaseContext s = Except.ok s' →
      FiscoBcosConnector.getContext ri args s' =
        Except.ok ([], { context := some [] })) := by
  exact ⟨rfl, fun s' _ => rfl⟩

/-- Witness for C7 from the fresh (no prior `getContext`) state. -/
theorem c7_releaseContext_safe_witness :
    FiscoBcosConnector.releaseContext { context := none } =
      Except.ok { context := none } ∧
    FiscoBcosConnector.getContext 0 [] { context := none } =
      Except.ok ([], { context := some [] }) :=
  ⟨(c7_releaseContext_safe { context := none } 0 []).1,
   (c7_releaseContext_safe { context := none } 0 []).2 _ rfl⟩

/-- C8: when the underlying install strategy fails, the concrete
connector's `installSmartContract` logs the failure once and re-throws
the very same error unchanged. -/
theorem c8_install_rethrows_unchanged (e : String) :
    FiscoBcosConnector.installSmartContract (Except.error e) =
      (["FISCO BCOS smart contract install failed: " ++ e],
       Except.error e) := rfl

/-- C10: the concrete connector's `getContext` is deterministic and
independent of its inputs — any two calls with any round indices,
arguments, and instance states return the same empty context. -/
theorem c10_getContext_input_independent
    (r1 : Nat) (a1 : ArgMap) (s1 : FiscoBcosConnector.FiscoBcosState)
    (r2 : Nat) (a2 : ArgMap) (s2 : FiscoBcosConnector.FiscoBcosState) :
    FiscoBcosConnector.getContext r1 a1 s1 =
      FiscoBcosConnector.getContext r2 a2 s2 ∧
    FiscoBcosConnector.getContext r1 a1 s1 =
      Except.ok ([], { context := some [] }) :=
  ⟨rfl, rfl⟩

namespace FiscoBcosConnector

/-- The value of a fulfilled promise (unused default on rejections). -/
def exceptValue : Except String TxStatus → TxStatus
  | .ok r => r
  | .error _ => default

lemma firstRejection_nil (order : List Nat) :
    firstRejection order ([] : List (Except String TxStatus)) = none := by
  induction order with
  | nil => rfl
  | cons i rest ih => exact ih

lemma firstRejection_eq_none_iff (order : List Nat)
    (ps : List (Except String TxStatus))
    (hperm : order.Perm (List.range ps.length)) :
    firstRejection order ps = none ↔ ∀ p ∈ ps, ∃ r, p = Except.ok r := by
  unfold firstRejection
  rw [List.findSome?_eq_none_iff]
  constructor
  · intro h p hp
    obtain ⟨i, hi⟩ := List.mem_iff_getElem?.mp hp
    have hilen : i < ps.length := by
      by_contra hge
      rw [List.getElem?_eq_none (Nat.le_of_not_lt hge)] at hi
      exact Option.noConfusion hi
    have hio : i ∈ order := hperm.mem_iff.mpr (List.mem_range.mpr hilen)
    have hprobe := h i hio
    rw [hi] at hprobe
    cases p with
    | ok r => exact ⟨r, rfl⟩
    | error e => exact Option.noConfusion hprobe
  · intro h i _
    cases hps : ps[i]? with
    | none => rfl
    | some p =>
        obtain ⟨r, hr⟩ := h p (List.mem_iff_getElem?.mpr ⟨i, hps⟩)
        rw [hr]

lemma filterMap_toOption_of_allOk :
    ∀ ps : List (Except String TxStatus),
      (∀ p ∈ ps, ∃ r, p = Except.ok r) →
      ps.filterMap Except.toOption = ps.map exceptValue := by
  intro ps
  induction ps with
  | nil => intro _; rfl
  | cons p rest ih =>
      intro h
      obtain ⟨r, hr⟩ := h p (List.mem_cons_self _ _)
      subst hr
      rw [List.filterMap_cons, List.map_cons]
      rw [ih (fun q hq => h q (List.mem_cons_of_mem _ hq))]
      rfl

end FiscoBcosConnector

/-- C9: invoking with an empty batch emits zero `txsSubmitted` events,
exactly one `txsFinished` event carrying an empty result list, and
resolves with the empty list, for every strategy and completion order. -/
theorem c9_empty_batch (st : Strategy) (cid : String) (order : List Nat) :
    FiscoBcosConnector.invokeSmartContract st cid (InvokeData.batch []) order =
      ([Event.txsFinished (FinPayload.many [])], Except.ok []) := by
  have h := FiscoBcosConnector.firstRejection_nil order
  simp [FiscoBcosConnector.invokeSmartContract, FiscoBcosConnector.promiseAll,
    toInvocations, h]

/-- A strategy whose underlying call rejects exactly when the
positional-argument list is `["b"]`, fulfilling otherwise. -/
def failingStrategy : Strategy :=
  { run := fun _ _ args _ =>
      match args with
      | CallArgs.arr ["b"] => Except.error "element two failed"
      | _ => Except.ok { id := "ok", success := true } }

/-- A 3-element batch whose second element's underlying call rejects
under `failingStrategy` while the first and third fulfil. -/
def batchThree : InvokeData :=
  InvokeData.batch
    [[("transaction_type", JSValue.vStr "f"), ("k", JSValue.vStr "a")],
     [("transaction_type", JSValue.vStr "f"), ("k", JSValue.vStr "b")],
     [("transaction_type", JSValue.vStr "f"), ("k", JSValue.vStr "c")]]

/-- C1 counterexample: on a 3-element batch where element 2's underlying
call rejects and elements 1 and 3 fulfil, the connector emits NO
`txsFinished` event at all — only the three `txsSubmitted(1)` events —
and the returned promise rejects with the rejection, contradicting the
claim that one Finished event with a result entry for every element is
still emitted. -/
theorem c1_counterexample :
    FiscoBcosConnector.callOf failingStrategy "c"
        [("transaction_type", JSValue.vStr "f"), ("k", JSValue.vStr "a")] =
      Except.ok { id := "ok", success := true } ∧
    FiscoBcosConnector.callOf failingStrategy "c"
        [("transaction_type", JSValue.vStr "f"), ("k", JSValue.vStr "b")] =
      Except.error "element two failed" ∧
    FiscoBcosConnector.callOf failingStrategy "c"
        [("transaction_type", JSValue.vStr "f"), ("k", JSValue.vStr "c")] =
      Except.ok { id := "ok", success := true } ∧
    (FiscoBcosConnector.invokeSmartContract failingStrategy "c" batchThree
        [0, 1, 2]).1 =
      [Event.txsSubmitted 1, Event.txsSubmitted 1, Event.txsSubmitted 1] ∧
    (FiscoBcosConnector.invokeSmartContract failingStrategy "c" batchThree
        [0, 1, 2]).1.filter Event.isTxsFinished = [] ∧
    (FiscoBcosConnector.invokeSmartContract failingStrategy "c" batchThree
        [0, 1, 2]).2 = Except.error "element two failed" :=
  ⟨rfl, rfl, rfl, rfl, rfl, rfl⟩

/-- C1 amended: for every batch in which at least one element's
underlying call rejects, the connector emits the per-element
`txsSubmitted(1)` events but NO `txsFinished` event, and the returned
promise rejects with the earliest-completing rejection (`Promise.all`
fail-fast, not fail-together). -/
theorem c1_reject_failfast (st : Strategy) (cid : String)
    (d : InvokeData) (order : List Nat)
    (hperm : order.Perm (List.range (toInvocations d).length))
    (hfail : ∃ arg ∈ toInvocations d, ∃ e,
        FiscoBcosConnector.callOf st cid arg = Except.error e) :
    (∃ e, FiscoBcosConnector.invokeSmartContract st cid d order =
        (List.replicate (toInvocations d).length (Event.txsSubmitted 1),
         Except.error e)) ∧
    (FiscoBcosConnector.invokeSmartContract st cid d order).1.filter
        Event.isTxsFinished = [] := by
  have hperm2 : order.Perm (List.range
      ((toInvocations d).map (FiscoBcosConnector.callOf st cid)).length) := by
    rw [List.length_map]; exact hperm
  have hnone : ¬ (FiscoBcosConnector.firstRejection order
      ((toInvocations d).map (FiscoBcosConnector.callOf st cid)) = none) := by
    intro hn
    have hall := (FiscoBcosConnector.firstRejection_eq_none_iff order _
      hperm2).mp hn
    obtain ⟨arg, harg, e, he⟩ := hfail
    obtain ⟨r, hr⟩ := hall _ (List.mem_map_of_mem _ harg)
    rw [he] at hr
    exact Except.noConfusion hr
  obtain ⟨e, he⟩ := Option.ne_none_iff_exists.mp hnone
  have hsub : (toInvocations d).map (fun _ => Event.txsSubmitted 1) =
      List.replicate (toInvocations d).length (Event.txsSubmitted 1) :=
    List.map_const' _ _
  have hinv : FiscoBcosConnector.invokeSmartContract st cid d order =
      (List.replicate (toInvocations d).length (Event.txsSubmitted 1),
       Except.error e) := by
    simp only [FiscoBcosConnector.invokeSmartContract,
      FiscoBcosConnector.promiseAll, ← he, hsub]
  refine ⟨⟨e, hinv⟩, ?_⟩
  rw [hinv]
  simp [List.filter_replicate, Event.isTxsFinished]

/-- Witness for C1's amended theorem on the concrete 3-element batch. -/
theorem c1_reject_failfast_witness :
    (∃ e, FiscoBcosConnector.invokeSmartContract failingStrategy "c"
        batchThree [0, 1, 2] =
      (List.replicate 3 (Event.txsSubmitted 1), Except.error e)) ∧
    (FiscoBcosConnector.invokeSmartContract failingStrategy "c" batchThree
        [0, 1, 2]).1.filter Event.isTxsFinished = [] := by
  have h := c1_reject_failfast failingStrategy "c" batchThree [0, 1, 2]
    (by decide)
    ⟨[("transaction_type", JSValue.vStr "f"), ("k", JSValue.vStr "b")],
     by decide, "element two failed", rfl⟩
  exact h

/-- C2: for every batch of size `n` (a single argument map counting as a
batch of size 1), `n` `txsSubmitted(1)` events are emitted before any
`txsFinished` event, and whenever the call resolves, its single
`txsFinished` event carries a result sequence of length `n` whose entry
at every index `i` is the outcome of the underlying call for input
element `i`, for every completion order of the concurrent calls. -/
theorem c2_submitted_before_finished_aligned (st : Strategy) (cid : String)
    (d : InvokeData) (order : List Nat)
    (hperm : order.Perm (List.range (toInvocations d).length)) :
    ((FiscoBcosConnector.invokeSmartContract st cid d order).1.take
        (toInvocations d).length =
      List.replicate (toInvocations d).length (Event.txsSubmitted 1)) ∧
    (∀ rs, (FiscoBcosConnector.invokeSmartContract st cid d order).2 =
        Except.ok rs →
      (FiscoBcosConnector.invokeSmartContract st cid d order).1 =
        List.replicate (toInvocations d).length (Event.txsSubmitted 1) ++
          [Event.txsFinished (FinPayload.many rs)] ∧
      rs.length = (toInvocations d).length ∧
      (∀ i (hi : i < (toInvocations d).length) (hir : i < rs.length),
        FiscoBcosConnector.callOf st cid ((toInvocations d).get ⟨i, hi⟩) =
          Except.ok (rs.get ⟨i, hir⟩))) := by
  have hperm2 : order.Perm (List.range
      ((toInvocations d).map (FiscoBcosConnector.callOf st cid)).length) := by
    rw [List.length_map]; exact hperm
  have hsub : (toInvocations d).map (fun _ => Event.txsSubmitted 1) =
      List.replicate (toInvocations d).length (Event.txsSubmitted 1) :=
    List.map_const' _ _
  cases hfr : FiscoBcosConnector.firstRejection order
      ((toInvocations d).map (FiscoBcosConnector.callOf st cid)) with
  | some e =>
      have hinv : FiscoBcosConnector.invokeSmartContract st cid d order =
          (List.replicate (toInvocations d).length (Event.txsSubmitted 1),
           Except.error e) := by
        simp only [FiscoBcosConnector.invokeSmartContract,
          FiscoBcosConnector.promiseAll, hfr, hsub]
      rw [hinv]
      refine ⟨by simp [List.take_replicate], ?_⟩
      intro rs h
      exact Except.noConfusion h
  | none =>
      have hall := (FiscoBcosConnector.firstRejection_eq_none_iff order _
        hperm2).mp hfr
      have hfm := FiscoBcosConnector.filterMap_toOption_of_allOk _ hall
      have hinv : FiscoBcosConnector.invokeSmartContract st cid d order =
          (List.replicate (toInvocations d).length (Event.txsSubmitted 1) ++
            [Event.txsFinished (FinPayload.many
              (((toInvocations d).map
                  (FiscoBcosConnector.callOf st cid)).map
                FiscoBcosConnector.exceptValue))],
           Except.ok (((toInvocations d).map
              (FiscoBcosConnector.callOf st cid)).map
            FiscoBcosConnector.exceptValue)) := by
        simp only [FiscoBcosConnector.invokeSmartContract,
          FiscoBcosConnector.promiseAll, hfr, hfm, hsub]
      rw [hinv]
      constructor
      · exact List.take_left' (by simp)
      · intro rs h
        have hrs : rs = ((toInvocations d).map
            (FiscoBcosConnector.callOf st cid)).map
            FiscoBcosConnector.exceptValue := (Except.ok.inj h).symm
        subst hrs
        refine ⟨rfl, by simp, ?_⟩
        intro i hi hir
        simp only [List.get_eq_getElem, List.getElem_map]
        obtain ⟨r, hr⟩ :=
          hall _ (List.mem_map_of_mem _ (List.getElem_mem hi))
        rw [hr]
        rfl

/-- A fulfilled transaction result used by concrete scenarios. -/
def okTx : TxStatus := { id := "ok", success := true }

/-- A strategy whose underlying call always fulfils with `okTx`. -/
def okStrategy : Strategy :=
  { run := fun _ _ _ _ => Except.ok okTx }

/-- Witness for C2 on a 2-element batch completed in reversed order. -/
theorem c2_submitted_before_finished_aligned_witness :
    FiscoBcosConnector.invokeSmartContract okStrategy "c"
        (InvokeData.batch
          [[("transaction_type", JSValue.vStr "f"), ("k", JSValue.vStr "a")],
           [("transaction_type", JSValue.vStr "f"), ("k", JSValue.vStr "b")]])
        [1, 0] =
      ([Event.txsSubmitted 1, Event.txsSubmitted 1,
        Event.txsFinished (FinPayload.many [okTx, okTx])],
       Except.ok [okTx, okTx]) ∧
    FiscoBcosConnector.callOf okStrategy "c"
        [("transaction_type", JSValue.vStr "f"), ("k", JSValue.vStr "a")] =
      Except.ok okTx := by
  have h := c2_submitted_before_finished_aligned okStrategy "c"
    (InvokeData.batch
      [[("transaction_type", JSValue.vStr "f"), ("k", JSValue.vStr "a")],
       [("transaction_type", JSValue.vStr "f"), ("k", JSValue.vStr "b")]])
    [1, 0] (by decide)
  have h2 := h.2 [okTx, okTx] rfl
  refine ⟨?_, ?_⟩
  · have hev := h2.1
    exact Prod.ext hev rfl
  · exact h2.2.2 0 (by decide) (by decide)

/-- The key and query function folded into a single argument map, the
shape the round-trip claim prescribes for the equivalent
`invokeSmartContract` call. -/
def queryAsArgMap (key fcn : String) : ArgMap :=
  [("transaction_type", JSValue.vStr fcn), ("key", JSValue.vStr key)]

/-- C5 counterexample: with a strategy that always fulfils with the same
result, `queryState` announces `txsFinished` with the BARE result while
the equivalent single-element `invokeSmartContract` announces a
one-element result LIST, so the Submitted/Finished event pairs are not
equal in shape. -/
theorem c5_counterexample :
    (FiscoBcosConnector.queryState okStrategy "c" "k" "f").1 =
      [Event.txsSubmitted 1, Event.txsFinished (FinPayload.one okTx)] ∧
    (FiscoBcosConnector.invokeSmartContract okStrategy "c"
        (InvokeData.single (queryAsArgMap "k" "f")) [0]).1 =
      [Event.txsSubmitted 1, Event.txsFinished (FinPayload.many [okTx])] ∧
    ¬ ((FiscoBcosConnector.queryState okStrategy "c" "k" "f").1 =
       (FiscoBcosConnector.invokeSmartContract okStrategy "c"
          (InvokeData.single (queryAsArgMap "k" "f")) [0]).1) :=
  ⟨rfl, rfl, by decide⟩

/-- C5 amended: `queryState(contractID, version, key, fcn)` emits the
same `txsSubmitted(1)` event as the equivalent single-element
`invokeSmartContract` call and, whenever the underlying strategy gives
the same result to both call shapes (`queryState` passes the bare key
with the read-only flag, `invokeSmartContract` a one-element argument
array without it), both finish with that result — but the `txsFinished`
payloads differ in shape: the bare result versus a one-element result
list. -/
theorem c5_queryState_vs_invoke (st : Strategy) (cid key fcn : String)
    (r : TxStatus)
    (hq : st.run cid (some fcn) (CallArgs.str key) true = Except.ok r)
    (hi : st.run cid (some fcn) (CallArgs.arr [key]) false = Except.ok r) :
    FiscoBcosConnector.queryState st cid key fcn =
      ([Event.txsSubmitted 1, Event.txsFinished (FinPayload.one r)],
       Except.ok r) ∧
    FiscoBcosConnector.invokeSmartContract st cid
        (InvokeData.single (queryAsArgMap key fcn)) [0] =
      ([Event.txsSubmitted 1, Event.txsFinished (FinPayload.many [r])],
       Except.ok [r]) := by
  constructor
  · unfold FiscoBcosConnector.queryState
    rw [hq]
  · have hc : FiscoBcosConnector.callOf st cid (queryAsArgMap key fcn) =
        Except.ok r := hi
    simp only [FiscoBcosConnector.invokeSmartContract, toInvocations,
      List.map_cons, List.map_nil, hc]
    rfl

/-- Witness for C5's amended theorem under the always-fulfilling
strategy. -/
theorem c5_queryState_vs_invoke_witness :
    FiscoBcosConnector.queryState okStrategy "c" "k" "f" =
      ([Event.txsSubmitted 1, Event.txsFinished (FinPayload.one okTx)],
       Except.ok okTx) ∧
    FiscoBcosConnector.invokeSmartContract okStrategy "c"
        (InvokeData.single (queryAsArgMap "k" "f")) [0] =
      ([Event.txsSubmitted 1, Event.txsFinished (FinPayload.many [okTx])],
       Except.ok [okTx]) :=
  c5_queryState_vs_invoke okStrategy "c" "k" "f" okTx rfl rfl
